import Mathlib

/-!
# Verification of the restaurant-sales frontend client logic

Shallow embedding of the repository's client-side logic:

* the per-page fetch/retry controllers (`src/pages/Forecast.tsx`,
  `src/pages/Report.tsx`, `src/pages/Products.tsx`),
* the session-state container (`src/context/AppContext.tsx`),
* the upload widget (`src/components/FileUpload.tsx`),
* the export utilities (`src/utils/downloadUtils.ts`).

JavaScript strings are modelled as Lean `String`s, JS numbers appearing in
formatting as `ℚ` (the inputs exercised are exactly representable and the
rounding behaviour agrees with IEEE doubles at those inputs), and the
side-effecting handlers as pure state-transition functions whose scheduled
`setTimeout` callbacks are returned explicitly.
-/

/-- `charsLeadWith pat s` is true when `pat` is an initial segment of `s`. -/
def charsLeadWith : List Char → List Char → Bool
  | [], _ => true
  | _ :: _, [] => false
  | p :: ps, c :: cs => p == c && charsLeadWith ps cs

/-- `charsContain s pat` is true when `pat` occurs contiguously inside `s`. -/
def charsContain : List Char → List Char → Bool
  | [], pat => charsLeadWith pat []
  | c :: cs, pat => charsLeadWith pat (c :: cs) || charsContain cs pat

/-- JS `String.prototype.includes`: `strIncludes s pat` is true when `pat`
occurs as a contiguous substring of `s`. -/
def strIncludes (s pat : String) : Bool :=
  charsContain s.data pat.data

/-- JS `String.prototype.endsWith`: `strEndsWith s pat` is true when `pat`
is a final segment of `s`. -/
def strEndsWith (s pat : String) : Bool :=
  charsLeadWith pat.data.reverse s.data.reverse

/-- Outcome of one invocation of an endpoint function: the decoded response
body, or a rejection whose `detail` field (from `err.response?.data?.detail`)
may be absent. -/
inductive FetchOutcome (α : Type) where
  | success (data : α)
  | failure (detail : Option String)
deriving DecidableEq, Repr

/-- The page-local state of a fetch/retry controller: the `loading` flag,
the `error` message, the `retryCount` counter and the cached payload
(the session field the page writes through its context setter). -/
structure PageState (α : Type) where
  loading : Bool
  error : Option String
  retryCount : Nat
  payload : Option α
deriving DecidableEq, Repr

/-- Initial controller state: not loading, no error, counter 0, no payload. -/
def PageState.init {α : Type} : PageState α :=
  ⟨false, none, 0, none⟩

/-- Fallback message used by `Forecast.fetchData` when the rejection carries
no `detail` field. -/
def forecastFallbackMessage : String :=
  "Failed to load forecast data. The server may still be processing your data. Please try again."

/-- `Forecast.fetchData` error message: prefer the server-supplied detail,
else the generic fallback. -/
def forecastErrorMessage (detail : Option String) : String :=
  detail.getD forecastFallbackMessage

/-- The retry guard of `Forecast.fetchData`:
`errorMessage.includes("not been processed yet") && retryCount < 3`. -/
def forecastShouldRetry (msg : String) (retryCount : Nat) : Bool :=
  strIncludes msg "not been processed yet" && decide (retryCount < 3)

/-- One run of the body of `Forecast.fetchData` (the code after the guard),
given the outcome of `getForecast`.  Returns the new page state together
with the delay (ms) of the single `setTimeout` scheduled by the handler,
if any.  The success branch stores the payload via `setForecastData`,
resets the counter, and the `setError(null)` from the top of the `try`
block stands; the failure branch records the message and schedules a
2000 ms retry exactly when the guard holds. -/
def forecastFetchStep {α : Type} (outcome : FetchOutcome α) (s : PageState α) :
    PageState α × Option Nat :=
  match outcome with
  | .success d =>
      ({ s with loading := false, error := none, retryCount := 0, payload := some d }, none)
  | .failure detail =>
      let msg := forecastErrorMessage detail
      ({ s with loading := false, error := some msg },
       if forecastShouldRetry msg s.retryCount then some 2000 else none)

/-- Fallback message used by `Report.fetchData` when the rejection carries
no `detail` field. -/
def reportFallbackMessage : String :=
  "Failed to generate business report. The server may still be processing your data. Please try again."

/-- `Report.fetchData` error message. -/
def reportErrorMessage (detail : Option String) : String :=
  detail.getD reportFallbackMessage

/-- The retry guard of `Report.fetchData`:
`(msg.includes("not been processed") || msg.includes("Required analysis")) && retryCount < 3`. -/
def reportShouldRetry (msg : String) (retryCount : Nat) : Bool :=
  (strIncludes msg "not been processed" || strIncludes msg "Required analysis")
    && decide (retryCount < 3)

/-- The report payload shape (`ReportData` interface in `Report.tsx`). -/
structure ReportPayload where
  summary : String
  insights : List String
  recommendations : List String
  future_outlook : String
deriving DecidableEq, Repr

/-- Lowercase hexadecimal digit for `n < 16` (`JSON.stringify` emits
lowercase hex in `\u00XX` escapes). -/
def hexDigitChar (n : Nat) : Char :=
  Char.ofNat (if n < 10 then 48 + n else 87 + n)

/-- `JSON.stringify`'s quoting of one string character: `"` and `\` get a
backslash escape, the named control characters use their short escapes,
any other code point below U+0020 becomes `\u00XX`, and everything else
is emitted verbatim. -/
def escChar (c : Char) : List Char :=
  if c = '\"' then ['\\', '\"']
  else if c = '\\' then ['\\', '\\']
  else if c = Char.ofNat 8 then ['\\', 'b']
  else if c = Char.ofNat 9 then ['\\', 't']
  else if c = Char.ofNat 10 then ['\\', 'n']
  else if c = Char.ofNat 12 then ['\\', 'f']
  else if c = Char.ofNat 13 then ['\\', 'r']
  else if c.toNat < 32 then
    ['\\', 'u', '0', '0', hexDigitChar (c.toNat / 16), hexDigitChar (c.toNat % 16)]
  else [c]

/-- The escaped body of a JSON string literal. -/
def encodeStringChars (s : List Char) : List Char :=
  (s.map escChar).flatten

/-- A JSON string literal: quote, escaped body, quote. -/
def encodeJsonString (s : String) : List Char :=
  '\"' :: (encodeStringChars s.data ++ ['\"'])

/-- Comma-separated concatenation of encoded items. -/
def commaJoin : List (List Char) → List Char
  | [] => []
  | [x] => x
  | x :: y :: rest => x ++ ',' :: commaJoin (y :: rest)

/-- A JSON array of string literals. -/
def encodeStrList (l : List String) : List Char :=
  '[' :: (commaJoin (l.map encodeJsonString) ++ [']'])

/-- `JSON.stringify` applied to a `ReportPayload` object, with the fields
in the order of the `ReportData` interface and no inter-token whitespace
(`JSON.stringify` with no spacing argument emits none). -/
def encodeReportChars (r : ReportPayload) : List Char :=
  '{' :: (encodeJsonString "summary" ++ ':' :: encodeJsonString r.summary
    ++ ',' :: (encodeJsonString "insights" ++ ':' :: encodeStrList r.insights)
    ++ ',' :: (encodeJsonString "recommendations" ++ ':' :: encodeStrList r.recommendations)
    ++ ',' :: (encodeJsonString "future_outlook" ++ ':' :: encodeJsonString r.future_outlook)
    ++ ['}'])

/-- The string stored in session state by `Report.fetchData`:
`JSON.stringify(data.report)`. -/
def encodeReport (r : ReportPayload) : String :=
  String.mk (encodeReportChars r)

/-- One run of the body of `Report.fetchData`, given the outcome of
`generateReport` (whose decoded `report` field is the payload).  The
success branch stores `JSON.stringify(data.report)` through
`setReportData` and resets the counter. -/
def reportFetchStep (outcome : FetchOutcome ReportPayload) (s : PageState String) :
    PageState String × Option Nat :=
  match outcome with
  | .success d =>
      ({ s with loading := false, error := none, retryCount := 0,
                payload := some (encodeReport d) }, none)
  | .failure detail =>
      let msg := reportErrorMessage detail
      ({ s with loading := false, error := some msg },
       if reportShouldRetry msg s.retryCount then some 2000 else none)

/-- The page-local state of the Products controller: `Products.fetchData`
keeps no retry counter. -/
structure ProductsState (α : Type) where
  loading : Bool
  error : Option String
  payload : Option α
deriving DecidableEq, Repr

/-- One run of the body of `Products.fetchData`.  The failure branch sets a
fixed message (the handler ignores any server detail) and schedules no
timeout: the returned `Option Nat` is the delay of a scheduled retry, and
the source contains no `setTimeout` call on any path. -/
def productsFetchStep {α : Type} (outcome : FetchOutcome α) (s : ProductsState α) :
    ProductsState α × Option Nat :=
  match outcome with
  | .success d =>
      ({ s with loading := false, error := none, payload := some d }, none)
  | .failure _ =>
      ({ s with loading := false, error := some "Failed to load product data. Please try again." },
       none)

/-- The `setTimeout` callback scheduled by a retrying branch:
`setRetryCount(prev => prev + 1)`. -/
def fireRetry {α : Type} (s : PageState α) : PageState α :=
  { s with retryCount := s.retryCount + 1 }

/-- Run a retrying controller against a list of successive endpoint
outcomes.  Each element feeds one invocation of the effect body; while a
retry is scheduled the incremented counter re-triggers the effect, so the
next outcome is consumed.  Returns the final page state, the number of
endpoint calls performed, and the total scheduled delay (ms). -/
def runPage {α β : Type} (step : FetchOutcome α → PageState β → PageState β × Option Nat) :
    List (FetchOutcome α) → PageState β → PageState β × Nat × Nat
  | [], s => (s, 0, 0)
  | o :: rest, s =>
      let (s', sched) := step o s
      match sched with
      | none => (s', 1, 0)
      | some d =>
          let (sf, calls, delay) := runPage step rest (fireRetry s')
          (sf, calls + 1, delay + d)

/-- The session-state container of `AppContext.tsx`: `fileId`,
`isProcessing`, and the three cached response payloads.  The forecast and
products payloads are typed `any` in the source, so they stay abstract
type parameters here; `reportData` is the JSON-encoded string. -/
structure AppState (F P : Type) where
  fileId : Option String
  isProcessing : Bool
  forecastData : Option F
  productsData : Option P
  reportData : Option String
deriving DecidableEq, Repr

/-- The empty session created at application start. -/
def AppState.init {F P : Type} : AppState F P :=
  ⟨none, false, none, none, none⟩

/-- `setFileId` from the provider: writes the `fileId` field. -/
def setFileId {F P : Type} (v : Option String) (s : AppState F P) : AppState F P :=
  { s with fileId := v }

/-- `setIsProcessing` from the provider: writes the `isProcessing` field. -/
def setIsProcessing {F P : Type} (v : Bool) (s : AppState F P) : AppState F P :=
  { s with isProcessing := v }

/-- `setForecastData` from the provider: writes the `forecastData` field. -/
def setForecastData {F P : Type} (v : Option F) (s : AppState F P) : AppState F P :=
  { s with forecastData := v }

/-- `setProductsData` from the provider: writes the `productsData` field. -/
def setProductsData {F P : Type} (v : Option P) (s : AppState F P) : AppState F P :=
  { s with productsData := v }

/-- `setReportData` from the provider: writes the `reportData` field. -/
def setReportData {F P : Type} (v : Option String) (s : AppState F P) : AppState F P :=
  { s with reportData := v }

/-- The state touched by the `FileUpload` widget: its local `file`,
`error` and `success` messages, the shared session, and (as an effect
log) the names of the files passed to the upload endpoint, in order. -/
structure UploadWidgetState (F P : Type) where
  file : Option String
  error : Option String
  success : Option String
  session : AppState F P
  uploadCalls : List String
deriving DecidableEq, Repr

/-- Widget state on first render: nothing selected, empty session. -/
def UploadWidgetState.init {F P : Type} : UploadWidgetState F P :=
  ⟨none, none, none, AppState.init, []⟩

/-- `FileUpload.handleFileChange` with a file selected: keep it (clearing
any error) when its name ends in `.csv`, otherwise show the error and
discard the selection.  No endpoint is involved on either path. -/
def handleFileChange {F P : Type} (name : String) (s : UploadWidgetState F P) :
    UploadWidgetState F P :=
  if strEndsWith name ".csv" then
    { s with file := some name, error := none }
  else
    { s with error := some "Please upload a CSV file", file := none }

/-- `FileUpload.handleUpload`.  The outcomes of the two endpoint calls are
passed in: `uploadOutcome` is `uploadFile`'s result (its `file_id` on
success) and `processOutcome` is `processData`'s.  With no file selected
the handler only sets an error.  Otherwise it raises `isProcessing`,
records the upload call, and on the success path of both calls stores the
returned `file_id` into the session; the `catch` branch sets the generic
error and the `finally` clears `isProcessing` on every such path. -/
def handleUpload {F P : Type} (uploadOutcome : Except Unit String)
    (processOutcome : Except Unit Unit) (s : UploadWidgetState F P) :
    UploadWidgetState F P :=
  match s.file with
  | none => { s with error := some "Please select a file first" }
  | some f =>
    let s1 := { s with session := setIsProcessing true s.session, error := none,
                       uploadCalls := s.uploadCalls ++ [f] }
    match uploadOutcome with
    | .error _ =>
        { s1 with error := some "Error uploading or processing file. Please try again.",
                  session := setIsProcessing false s1.session }
    | .ok file_id =>
        let s2 := { s1 with success := some "File uploaded successfully. Processing data..." }
        match processOutcome with
        | .error _ =>
            { s2 with error := some "Error uploading or processing file. Please try again.",
                      session := setIsProcessing false s2.session }
        | .ok _ =>
            let s3 := { s2 with session := setFileId (some file_id) s2.session,
                                success := some "Data processed successfully!" }
            { s3 with session := setIsProcessing false s3.session }

/-- User-level events the upload widget reacts to. -/
inductive UploadEvent where
  | selectFile (name : String)
  | clickUpload (uploadOutcome : Except Unit String) (processOutcome : Except Unit Unit)

/-- Dispatch one widget event. -/
def uploadWidgetStep {F P : Type} (e : UploadEvent) (s : UploadWidgetState F P) :
    UploadWidgetState F P :=
  match e with
  | .selectFile n => handleFileChange n s
  | .clickUpload uo po => handleUpload uo po s

/-- Run the upload widget from its initial state over a list of events. -/
def runUploadWidget {F P : Type} (events : List UploadEvent) : UploadWidgetState F P :=
  events.foldl (fun s e => uploadWidgetStep e s) UploadWidgetState.init

/-- Invariant of the upload widget: every file name ever passed to the
upload endpoint ends in `.csv`, and so does any currently kept
selection. -/
def uploadCsvInv {F P : Type} (s : UploadWidgetState F P) : Prop :=
  (∀ n ∈ s.uploadCalls, strEndsWith n ".csv" = true) ∧
  (∀ f, s.file = some f → strEndsWith f ".csv" = true)

/-- One record of the `product_details` sequence
(`src/types/ProductDetail.ts`).  The two fractional JS numbers are
modelled as rationals. -/
structure ProductDetail where
  name : String
  category : String
  revenue : ℚ
  quantity : Nat
  percentage : ℚ
deriving DecidableEq, Repr

/-- Two-digit zero-padded rendering of `m < 100`. -/
def pad2 (m : Nat) : String :=
  if m < 10 then "0" ++ toString m else toString m

/-- JS `Number.prototype.toFixed(2)`: render the sign, then the integer
`n` with `n / 100` closest to the magnitude (ties to the larger `n`, per
ECMA-262), as `whole.fraction` with exactly two fraction digits. -/
def toFixed2 (q : ℚ) : String :=
  let sign := if q < 0 then "-" else ""
  let n : Nat := (⌊|q| * 100 + 1 / 2⌋).toNat
  sign ++ toString (n / 100) ++ "." ++ pad2 (n % 100)

/-- One data row of `downloadProductsAsCSV`: 1-based rank, double-quoted
name and category, revenue and percentage via `toFixed(2)`, integer
quantity, joined with commas. -/
def productRow (index : Nat) (p : ProductDetail) : String :=
  toString (index + 1) ++ ",\"" ++ p.name ++ "\",\"" ++ p.category ++ "\","
    ++ toFixed2 p.revenue ++ "," ++ toString p.quantity ++ "," ++ toFixed2 p.percentage

/-- The rows appended by the `forEach` loop, each terminated by `"\n"`,
starting at index `i`. -/
def productsCsvRows : Nat → List ProductDetail → String
  | _, [] => ""
  | i, p :: ps => productRow i p ++ "\n" ++ productsCsvRows (i + 1) ps

/-- The fixed header line of the CSV export. -/
def productsCsvHeader : String :=
  "Rank,Name,Category,Revenue,Quantity,Contribution(%)\n"

/-- The full `csvContent` built by `downloadProductsAsCSV` before it is
wrapped in a `Blob` and handed to the browser download link. -/
def downloadProductsAsCSVContent (l : List ProductDetail) : String :=
  productsCsvHeader ++ productsCsvRows 0 l

/-- The text blocks `downloadReportAsPDF` writes, in source order. -/
inductive PdfSection where
  | title
  | date
  | summaryHeader
  | summaryText
  | insightsHeader
  | insight
  | recsHeader
  | recommendation
  | outlookHeader
  | outlookText
deriving DecidableEq, Repr

/-- One `pdf.text` call of `downloadReportAsPDF`: which block it writes,
the vertical cursor at the call, the number of wrapped lines passed, and
the page the document is on at that moment. -/
structure PdfWrite where
  name : PdfSection
  y : Nat
  lines : Nat
  page : Nat
deriving DecidableEq, Repr

/-- The insights `forEach` loop of `downloadReportAsPDF`: each insight is
written at the cursor with no page-break check, and the cursor advances
by `lines * 6 + 5`.  Returns the writes and the final cursor. -/
def insightWrites (page : Nat) : Nat → List Nat → List PdfWrite × Nat
  | y, [] => ([], y)
  | y, L :: rest =>
      let (ws, yf) := insightWrites page (y + L * 6 + 5) rest
      (⟨.insight, y, L, page⟩ :: ws, yf)

/-- The recommendations `forEach` loop: before each item, if
`yPosition + lines * 6 > 270` a new page is started and the cursor reset
to 20; then the item is written and the cursor advances. -/
def recWrites : Nat → Nat → List Nat → List PdfWrite × Nat × Nat
  | y, page, [] => ([], y, page)
  | y, page, L :: rest =>
      if y + L * 6 > 270 then
        let (ws, yf, pf) := recWrites (20 + (L * 6 + 5)) (page + 1) rest
        (⟨.recommendation, 20, L, page + 1⟩ :: ws, yf, pf)
      else
        let (ws, yf, pf) := recWrites (y + (L * 6 + 5)) page rest
        (⟨.recommendation, y, L, page⟩ :: ws, yf, pf)

/-- The sequence of text writes performed by `downloadReportAsPDF`, as a
function of the wrapped line counts that `pdf.splitTextToSize` returns
for the summary, each insight, each recommendation, and the outlook
(those counts are the only thing the cursor arithmetic depends on).
Mirrors the source line by line: title at 15, date at 22, summary header
at 35, summary text at 43, then the cursor-threading shown in the code,
with page breaks exactly where the source checks for them. -/
def reportPdfTrace (summaryLines : Nat) (insightLines recLines : List Nat)
    (outlookLines : Nat) : List PdfWrite :=
  let w0 : List PdfWrite := [⟨.title, 15, 1, 1⟩, ⟨.date, 22, 1, 1⟩]
  let w1 : List PdfWrite := [⟨.summaryHeader, 35, 1, 1⟩]
  let w2 : List PdfWrite := [⟨.summaryText, 43, summaryLines, 1⟩]
  let y1 := 43 + summaryLines * 6 + 10
  let w3 : List PdfWrite := [⟨.insightsHeader, y1, 1, 1⟩]
  let iw := insightWrites 1 (y1 + 8) insightLines
  let y3 := iw.2 + 5
  let w5 : List PdfWrite := [⟨.recsHeader, y3, 1, 1⟩]
  let rw := recWrites (y3 + 8) 1 recLines
  let y5 := rw.2.1 + 5
  let yo := if y5 > 240 then 20 else y5
  let po := if y5 > 240 then rw.2.2 + 1 else rw.2.2
  let w7 : List PdfWrite := [⟨.outlookHeader, yo, 1, po⟩, ⟨.outlookText, yo + 8, outlookLines, po⟩]
  w0 ++ w1 ++ w2 ++ w3 ++ iw.1 ++ w5 ++ rw.1 ++ w7

/-- Value of one hexadecimal digit character, as `JSON.parse` reads the
four digits of a `\uXXXX` escape. -/
def hexCharVal (c : Char) : Option Nat :=
  if 48 ≤ c.toNat ∧ c.toNat ≤ 57 then some (c.toNat - 48)
  else if 97 ≤ c.toNat ∧ c.toNat ≤ 102 then some (c.toNat - 87)
  else if 65 ≤ c.toNat ∧ c.toNat ≤ 70 then some (c.toNat - 55)
  else none

/-- The single-character escapes accepted after a backslash by the JSON
grammar (besides `\uXXXX`). -/
def unescapeChar (c : Char) : Option Char :=
  if c = '\"' then some '\"'
  else if c = '\\' then some '\\'
  else if c = '/' then some '/'
  else if c = 'b' then some (Char.ofNat 8)
  else if c = 't' then some (Char.ofNat 9)
  else if c = 'n' then some (Char.ofNat 10)
  else if c = 'f' then some (Char.ofNat 12)
  else if c = 'r' then some (Char.ofNat 13)
  else none

/-- The value of the four hex digits of a `\uXXXX` escape, when all four
characters are hexadecimal digits. -/
def hex4 (a b c d : Char) : Option Nat :=
  (hexCharVal a).bind fun x =>
    (hexCharVal b).bind fun y =>
      (hexCharVal c).bind fun z =>
        (hexCharVal d).map fun w => ((x * 16 + y) * 16 + z) * 16 + w

/-- Body of a JSON string literal, after the opening quote: returns the
decoded characters and the input following the closing quote.  This is
`JSON.parse`'s string production. -/
def parseStrAux : List Char → Option (List Char × List Char)
  | [] => none
  | c :: rest =>
    if c = '\"' then some ([], rest)
    else if c = '\\' then
      match rest with
      | [] => none
      | e :: rest2 =>
        if e = 'u' then
          match rest2 with
          | a :: b :: c2 :: d :: rest3 =>
            match hex4 a b c2 d with
            | some n => (parseStrAux rest3).map (fun p => (Char.ofNat n :: p.1, p.2))
            | none => none
          | _ => none
        else
          match unescapeChar e with
          | some ch => (parseStrAux rest2).map (fun p => (ch :: p.1, p.2))
          | none => none
    else (parseStrAux rest).map (fun p => (c :: p.1, p.2))

/-- A whole JSON string literal, opening quote included. -/
def parseJsonString : List Char → Option (List Char × List Char)
  | [] => none
  | c :: rest => if c = '\"' then parseStrAux rest else none


/-- Elements of a JSON array of strings, after the opening bracket of a
non-empty array: a string literal, then either `,` and more elements or
the closing `]`.  The fuel argument only bounds the recursion; the
wrapper passes more fuel than any input can consume, so this is the
array production of `JSON.parse` restricted to string elements. -/
def parseStrElemsAux : Nat → List Char → Option (List String × List Char)
  | 0, _ => none
  | fuel + 1, input =>
    match parseJsonString input with
    | none => none
    | some (s, rest) =>
      match rest with
      | ',' :: r2 =>
        match parseStrElemsAux fuel r2 with
        | some (l, r3) => some (String.mk s :: l, r3)
        | none => none
      | ']' :: r2 => some ([String.mk s], r2)
      | _ => none

/-- Non-empty string-array elements with sufficient fuel (each element
consumes at least one character, so `input.length + 1` always is). -/
def parseStrElems (input : List Char) : Option (List String × List Char) :=
  parseStrElemsAux (input.length + 1) input

/-- A JSON array of string literals, `[` included. -/
def parseStrArr : List Char → Option (List String × List Char)
  | '[' :: rest =>
    match rest with
    | ']' :: r2 => some ([], r2)
    | _ => parseStrElems rest
  | _ => none

/-- Consume an expected literal character sequence. -/
def dropLit : List Char → List Char → Option (List Char)
  | [], input => some input
  | _ :: _, [] => none
  | p :: ps, c :: cs => if p = c then dropLit ps cs else none

/-- `JSON.parse` of the session-stored report string, specialized to the
object shape `Report.tsx` stores: the four keys in interface order, with
the whitespace-free layout `JSON.stringify` produces (the stored string
always comes from that same code path). -/
def parseReport (input : List Char) : Option ReportPayload :=
  match dropLit ('{' :: ('\"' :: ("summary".data ++ ['\"', ':']))) input with
  | none => none
  | some r1 =>
    match parseJsonString r1 with
    | none => none
    | some (sm, r2) =>
      match dropLit (',' :: ('\"' :: ("insights".data ++ ['\"', ':']))) r2 with
      | none => none
      | some r3 =>
        match parseStrArr r3 with
        | none => none
        | some (ins, r4) =>
          match dropLit (',' :: ('\"' :: ("recommendations".data ++ ['\"', ':']))) r4 with
          | none => none
          | some r5 =>
            match parseStrArr r5 with
            | none => none
            | some (recs, r6) =>
              match dropLit (',' :: ('\"' :: ("future_outlook".data ++ ['\"', ':']))) r6 with
              | none => none
              | some r7 =>
                match parseJsonString r7 with
                | none => none
                | some (fo, r8) =>
                  match r8 with
                  | ['}'] => some ⟨String.mk sm, ins, recs, String.mk fo⟩
                  | _ => none

/-- Decoding the session-stored string on render:
`JSON.parse(reportData)` in `Report.tsx`. -/
def decodeReport (s : String) : Option ReportPayload :=
  parseReport s.data

/-- The spec's Forecast retry scenario: run the Forecast controller
against two failing calls with the given detail message followed by one
success. -/
def forecastScenario (msg : String) : PageState Unit × Nat × Nat :=
  runPage forecastFetchStep
    [.failure (some msg), .failure (some msg), .success ()] PageState.init

/-- Page-break invariant the recommendations loop maintains, and the
events the insights loop emits, are stated over these traces below. -/
def pdfPageBottom : Nat := 270

/-! ## Helper lemmas -/

theorem parseStrAux_quote (rest : List Char) :
    parseStrAux ('\"' :: rest) = some ([], rest) := by
  rw [parseStrAux.eq_def]; exact rfl

theorem parseStrAux_u (a b c2 d : Char) (rest3 : List Char) :
    parseStrAux ('\\' :: 'u' :: a :: b :: c2 :: d :: rest3) =
      match hex4 a b c2 d with
      | some n => (parseStrAux rest3).map (fun p => (Char.ofNat n :: p.1, p.2))
      | none => none := by
  rw [parseStrAux.eq_def]; exact rfl

theorem parseStrAux_esc (e : Char) (rest2 : List Char) (hu : ¬e = 'u') :
    parseStrAux ('\\' :: e :: rest2) =
      match unescapeChar e with
      | some ch => (parseStrAux rest2).map (fun p => (ch :: p.1, p.2))
      | none => none := by
  rw [parseStrAux.eq_def]
  simp only [if_neg hu]
  exact rfl

theorem parseStrAux_char (c : Char) (rest : List Char) (h1 : ¬c = '\"') (h2 : ¬c = '\\') :
    parseStrAux (c :: rest) = (parseStrAux rest).map (fun p => (c :: p.1, p.2)) := by
  rw [parseStrAux.eq_def]
  simp only [if_neg h1, if_neg h2]

theorem hexCharVal_hexDigitChar : ∀ m : Nat, m < 16 → hexCharVal (hexDigitChar m) = some m := by
  decide

theorem parseStrAux_escape (c : Char) (X : List Char) :
    parseStrAux (escChar c ++ X) = (parseStrAux X).map (fun p => (c :: p.1, p.2)) := by
  by_cases h1 : c = '\"'
  · subst h1
    rw [show escChar '\"' = ['\\', '\"'] from by decide]
    simp only [List.cons_append, List.nil_append]
    rw [parseStrAux_esc _ _ (by decide)]
    exact rfl
  · by_cases h2 : c = '\\'
    · subst h2
      rw [show escChar '\\' = ['\\', '\\'] from by decide]
      simp only [List.cons_append, List.nil_append]
      rw [parseStrAux_esc _ _ (by decide)]
      exact rfl
    · by_cases h3 : c = Char.ofNat 8
      · subst h3
        rw [show escChar (Char.ofNat 8) = ['\\', 'b'] from by decide]
        simp only [List.cons_append, List.nil_append]
        rw [parseStrAux_esc _ _ (by decide)]
        exact rfl
      · by_cases h4 : c = Char.ofNat 9
        · subst h4
          rw [show escChar (Char.ofNat 9) = ['\\', 't'] from by decide]
          simp only [List.cons_append, List.nil_append]
          rw [parseStrAux_esc _ _ (by decide)]
          exact rfl
        · by_cases h5 : c = Char.ofNat 10
          · subst h5
            rw [show escChar (Char.ofNat 10) = ['\\', 'n'] from by decide]
            simp only [List.cons_append, List.nil_append]
            rw [parseStrAux_esc _ _ (by decide)]
            exact rfl
          · by_cases h6 : c = Char.ofNat 12
            · subst h6
              rw [show escChar (Char.ofNat 12) = ['\\', 'f'] from by decide]
              simp only [List.cons_append, List.nil_append]
              rw [parseStrAux_esc _ _ (by decide)]
              exact rfl
            · by_cases h7 : c = Char.ofNat 13
              · subst h7
                rw [show escChar (Char.ofNat 13) = ['\\', 'r'] from by decide]
                simp only [List.cons_append, List.nil_append]
                rw [parseStrAux_esc _ _ (by decide)]
                exact rfl
              · by_cases h8 : c.toNat < 32
                · rw [show escChar c =
                      ['\\', 'u', '0', '0', hexDigitChar (c.toNat / 16),
                        hexDigitChar (c.toNat % 16)] from by
                    simp only [escChar, if_neg h1, if_neg h2, if_neg h3, if_neg h4, if_neg h5,
                      if_neg h6, if_neg h7, if_pos h8]]
                  simp only [List.cons_append, List.nil_append]
                  rw [parseStrAux_u]
                  have hv16 : c.toNat / 16 < 16 := by omega
                  have hm16 : c.toNat % 16 < 16 := Nat.mod_lt _ (by norm_num)
                  have he : hex4 '0' '0' (hexDigitChar (c.toNat / 16))
                      (hexDigitChar (c.toNat % 16)) = some c.toNat := by
                    simp only [hex4, show hexCharVal '0' = some 0 from by decide,
                      hexCharVal_hexDigitChar _ hv16, hexCharVal_hexDigitChar _ hm16,
                      Option.some_bind, Option.map_some']
                    exact congrArg some (by omega)
                  rw [he]
                  simp only [Char.ofNat_toNat]
                · rw [show escChar c = [c] from by
                    simp only [escChar, if_neg h1, if_neg h2, if_neg h3, if_neg h4, if_neg h5,
                      if_neg h6, if_neg h7, if_neg h8]]
                  simp only [List.cons_append, List.nil_append]
                  exact parseStrAux_char c X h1 h2

theorem parseStrAux_encode (s : List Char) (rest : List Char) :
    parseStrAux (encodeStringChars s ++ ('\"' :: rest)) = some (s, rest) := by
  induction s with
  | nil =>
      simp only [encodeStringChars, List.map_nil, List.flatten_nil, List.nil_append]
      exact parseStrAux_quote rest
  | cons c t ih =>
      simp only [encodeStringChars, List.map_cons, List.flatten_cons, List.append_assoc] at ih ⊢
      rw [parseStrAux_escape, ih]
      rfl

theorem parseJsonString_encode (s : String) (rest : List Char) :
    parseJsonString (encodeJsonString s ++ rest) = some (s.data, rest) := by
  simp only [encodeJsonString, List.cons_append, List.append_assoc, List.cons_append,
    List.nil_append]
  show parseStrAux (encodeStringChars s.data ++ ('\"' :: rest)) = _
  exact parseStrAux_encode s.data rest

theorem strMk_data (s : String) : String.mk s.data = s := rfl

theorem parseStrElemsAux_encode :
    ∀ (l : List String), l ≠ [] → ∀ (fuel : Nat), l.length ≤ fuel → ∀ (rest : List Char),
      parseStrElemsAux fuel (commaJoin (l.map encodeJsonString) ++ (']' :: rest))
        = some (l, rest) := by
  intro l
  induction l with
  | nil => intro h; exact absurd rfl h
  | cons a t ih =>
      intro hne fuel hf rest
      match fuel, hf with
      | fuel + 1, hf =>
        cases t with
        | nil =>
            simp only [List.map_cons, List.map_nil, commaJoin]
            rw [parseStrElemsAux, parseJsonString_encode]
            rfl
        | cons b t2 =>
            simp only [List.map_cons, commaJoin, List.append_assoc, List.cons_append]
            rw [parseStrElemsAux, parseJsonString_encode]
            have hrec := ih (by simp) fuel (by simpa using Nat.le_of_succ_le_succ hf) rest
            simp only [List.map_cons] at hrec
            show (match parseStrElemsAux fuel (commaJoin (encodeJsonString b ::
                List.map encodeJsonString t2) ++ (']' :: rest)) with
              | some (l, r3) => some (String.mk a.data :: l, r3)
              | none => none) = some (a :: b :: t2, rest)
            rw [hrec]

theorem length_le_commaJoin (l : List String) (suffix : List Char) :
    l.length ≤ (commaJoin (l.map encodeJsonString) ++ suffix).length := by
  induction l generalizing suffix with
  | nil => simp
  | cons a t ih =>
      cases t with
      | nil => simp [commaJoin, encodeJsonString]
      | cons b t2 =>
          simp only [List.map_cons, commaJoin, List.append_assoc, List.cons_append,
            List.length_cons, List.length_append]
          have hrec := ih suffix
          simp only [List.map_cons, List.length_append, List.length_cons] at hrec
          have ha : 1 ≤ (encodeJsonString a).length := by simp [encodeJsonString]
          omega

theorem parseStrElems_encode (l : List String) (hl : l ≠ []) (rest : List Char) :
    parseStrElems (commaJoin (l.map encodeJsonString) ++ (']' :: rest)) = some (l, rest) := by
  unfold parseStrElems
  exact parseStrElemsAux_encode l hl _
    (Nat.le_succ_of_le (length_le_commaJoin l (']' :: rest))) rest

theorem parseStrArr_encode (l : List String) (rest : List Char) :
    parseStrArr (encodeStrList l ++ rest) = some (l, rest) := by
  cases l with
  | nil => simp [encodeStrList, commaJoin, parseStrArr]
  | cons a t =>
      have hY : ∃ Y, commaJoin ((a :: t).map encodeJsonString) = '\"' :: Y := by
        cases t with
        | nil => exact ⟨_, rfl⟩
        | cons b t2 => exact ⟨_, rfl⟩
      obtain ⟨Y, hY⟩ := hY
      have harg : encodeStrList (a :: t) ++ rest = '[' :: ('\"' :: (Y ++ (']' :: rest))) := by
        simp only [encodeStrList, hY, List.cons_append, List.append_assoc, List.nil_append]
      rw [harg]
      have hstep : parseStrArr ('[' :: ('\"' :: (Y ++ (']' :: rest)))) =
          parseStrElems ('\"' :: (Y ++ (']' :: rest))) := by
        rw [parseStrArr.eq_def]
        exact rfl
      rw [hstep]
      have hback : ('\"' : Char) :: (Y ++ (']' :: rest)) =
          commaJoin ((a :: t).map encodeJsonString) ++ (']' :: rest) := by
        rw [hY]; simp only [List.cons_append]
      rw [hback]
      exact parseStrElems_encode (a :: t) (by simp) rest

theorem dropLit_append (p x : List Char) : dropLit p (p ++ x) = some x := by
  induction p with
  | nil => rfl
  | cons c ps ih => simp [dropLit, ih]

/-! ## Claim theorems -/

/-- C7: For every `ReportPayload` value, encoding it to the JSON string
stored in session state (`JSON.stringify` in `Report.fetchData`) and
decoding that string back (`JSON.parse` in `parsedReport`) yields a value
deep-equal to the original payload: the store/parse round-trip has no
semantic effect. -/
theorem report_session_roundtrip (r : ReportPayload) :
    decodeReport (encodeReport r) = some r := by
  show parseReport (encodeReportChars r) = some r
  have hnorm : encodeReportChars r =
      ('{' :: ('\"' :: ("summary".data ++ ['\"', ':']))) ++
      (encodeJsonString r.summary ++
        ((',' :: ('\"' :: ("insights".data ++ ['\"', ':']))) ++
          (encodeStrList r.insights ++
            ((',' :: ('\"' :: ("recommendations".data ++ ['\"', ':']))) ++
              (encodeStrList r.recommendations ++
                ((',' :: ('\"' :: ("future_outlook".data ++ ['\"', ':']))) ++
                  (encodeJsonString r.future_outlook ++ ['}']))))))) := by
    simp only [encodeReportChars,
      show encodeJsonString "summary" = '\"' :: ("summary".data ++ ['\"']) from by decide,
      show encodeJsonString "insights" = '\"' :: ("insights".data ++ ['\"']) from by decide,
      show encodeJsonString "recommendations"
        = '\"' :: ("recommendations".data ++ ['\"']) from by decide,
      show encodeJsonString "future_outlook"
        = '\"' :: ("future_outlook".data ++ ['\"']) from by decide,
      List.cons_append, List.append_assoc, List.nil_append]
  rw [hnorm]
  unfold parseReport
  rw [dropLit_append]
  simp only [parseJsonString_encode, dropLit_append, parseStrArr_encode, strMk_data]

/-- C8: On every successful fetch by a data page's controller, the decoded
payload is stored into its session-state field (for Report, as its JSON
encoding), the retry counter is reset to zero, and any previous error is
cleared (Products keeps no retry counter; its payload and error behave the
same way). -/
theorem fetch_success_stores_resets_clears :
    (∀ (α : Type) (v : α) (s : PageState α),
        forecastFetchStep (.success v) s = (⟨false, none, 0, some v⟩, none)) ∧
    (∀ (v : ReportPayload) (s : PageState String),
        reportFetchStep (.success v) s = (⟨false, none, 0, some (encodeReport v)⟩, none)) ∧
    (∀ (α : Type) (v : α) (s : ProductsState α),
        productsFetchStep (.success v) s = (⟨false, none, some v⟩, none)) :=
  ⟨fun _ _ _ => rfl, fun _ _ => rfl, fun _ _ _ => rfl⟩

/-- C9: Every setter exposed by the session-state container updates only
its own field and leaves every other session field unchanged; in
particular, setting a new `fileId` does not clear the cached forecast,
products, or report payloads. -/
theorem session_setters_frame (F P : Type) (s : AppState F P) :
    (∀ v, (setFileId v s).fileId = v ∧
      (setFileId v s).isProcessing = s.isProcessing ∧
      (setFileId v s).forecastData = s.forecastData ∧
      (setFileId v s).productsData = s.productsData ∧
      (setFileId v s).reportData = s.reportData) ∧
    (∀ v, (setIsProcessing v s).isProcessing = v ∧
      (setIsProcessing v s).fileId = s.fileId ∧
      (setIsProcessing v s).forecastData = s.forecastData ∧
      (setIsProcessing v s).productsData = s.productsData ∧
      (setIsProcessing v s).reportData = s.reportData) ∧
    (∀ v, (setForecastData v s).forecastData = v ∧
      (setForecastData v s).fileId = s.fileId ∧
      (setForecastData v s).isProcessing = s.isProcessing ∧
      (setForecastData v s).productsData = s.productsData ∧
      (setForecastData v s).reportData = s.reportData) ∧
    (∀ v, (setProductsData v s).productsData = v ∧
      (setProductsData v s).fileId = s.fileId ∧
      (setProductsData v s).isProcessing = s.isProcessing ∧
      (setProductsData v s).forecastData = s.forecastData ∧
      (setProductsData v s).reportData = s.reportData) ∧
    (∀ v, (setReportData v s).reportData = v ∧
      (setReportData v s).fileId = s.fileId ∧
      (setReportData v s).isProcessing = s.isProcessing ∧
      (setReportData v s).forecastData = s.forecastData ∧
      (setReportData v s).productsData = s.productsData) :=
  ⟨fun _ => ⟨rfl, rfl, rfl, rfl, rfl⟩, fun _ => ⟨rfl, rfl, rfl, rfl, rfl⟩,
   fun _ => ⟨rfl, rfl, rfl, rfl, rfl⟩, fun _ => ⟨rfl, rfl, rfl, rfl, rfl⟩,
   fun _ => ⟨rfl, rfl, rfl, rfl, rfl⟩⟩

/-- C1 counterexample: the Products page's fetch controller, on a fetch
failure whose detail is the canonical "not yet processed" message and
with no prior retries, schedules no automatic retry at all (and sets its
fixed error message) — contradicting the claim that each of the three
data pages schedules exactly one retry in that situation. -/
theorem products_never_schedules_retry :
    (productsFetchStep (α := Unit)
      (.failure (some "Data has not been processed yet")) ⟨false, none, none⟩).2 = none ∧
    (productsFetchStep (α := Unit)
      (.failure (some "Data has not been processed yet")) ⟨false, none, none⟩).1.error =
        some "Failed to load product data. Please try again." := by
  exact ⟨rfl, rfl⟩

/-- C1 (amended): For the Forecast and Report pages, when the fetch fails
with a detail message matching that page's recognized "not ready"
substring(s) and the retry counter is below 3, exactly one retry is
scheduled after a fixed 2000 ms delay, and firing it increments the retry
counter by one; the Products page's fetch controller never schedules an
automatic retry. -/
theorem retry_scheduling_per_page :
    (∀ (α : Type) (d : String) (s : PageState α),
        strIncludes d "not been processed yet" = true → s.retryCount < 3 →
        (forecastFetchStep (.failure (some d)) s).2 = some 2000 ∧
        (fireRetry (forecastFetchStep (.failure (some d)) s).1).retryCount
          = s.retryCount + 1) ∧
    (∀ (d : String) (s : PageState String),
        (strIncludes d "not been processed" = true ∨
          strIncludes d "Required analysis" = true) → s.retryCount < 3 →
        (reportFetchStep (.failure (some d)) s).2 = some 2000 ∧
        (fireRetry (reportFetchStep (.failure (some d)) s).1).retryCount
          = s.retryCount + 1) ∧
    (∀ (α : Type) (o : FetchOutcome α) (s : ProductsState α),
        (productsFetchStep o s).2 = none) := by
  refine ⟨fun α d s h1 h2 => ⟨?_, rfl⟩, fun d s h1 h2 => ⟨?_, rfl⟩, fun α o s => ?_⟩
  · simp [forecastFetchStep, forecastErrorMessage, forecastShouldRetry, h1, h2]
  · rcases h1 with h1 | h1 <;>
      simp [reportFetchStep, reportErrorMessage, reportShouldRetry, h1, h2]
  · cases o <;> rfl

/-- C1 witness: the amended theorem applied at concrete messages and the
initial controller state. -/
theorem retry_scheduling_per_page_witness :
    (strIncludes "Data has not been processed yet" "not been processed yet" = true ∧
      (forecastFetchStep (α := Unit)
        (.failure (some "Data has not been processed yet")) PageState.init).2 = some 2000) ∧
    (strIncludes "Required analysis has not been processed" "Required analysis" = true ∧
      (reportFetchStep
        (.failure (some "Required analysis has not been processed")) PageState.init).2
          = some 2000) :=
  ⟨⟨by decide, (retry_scheduling_per_page.1 Unit _ PageState.init (by decide) (by decide)).1⟩,
   ⟨by decide, (retry_scheduling_per_page.2.1 _ PageState.init (Or.inr (by decide))
      (by decide)).1⟩⟩

/-- C2 counterexample: when the Forecast GET fails with detail
"Required analysis has not been processed" (which does not contain the
only substring `Forecast.fetchData` checks, "not been processed yet"),
the run performs exactly one call, schedules no delay, and ends in the
error render state — not the 3-call success run the claim states. -/
theorem forecast_scenario_required_analysis_fails :
    forecastScenario "Required analysis has not been processed"
      = (⟨false, some "Required analysis has not been processed", 0, none⟩, 1, 0) ∧
    ¬((forecastScenario "Required analysis has not been processed").1.error = none ∧
      (forecastScenario "Required analysis has not been processed").2.1 = 3) := by
  exact ⟨by decide, by decide⟩

/-- C2 (amended): if the Forecast GET fails with detail
"Data has not been processed yet" (the message `Forecast.fetchData`
actually matches) on the first two calls and succeeds on the third, the
page performs exactly 2 automatic retries (3 total calls, 2000 ms of
scheduled delay before each retry, 4000 ms in total) and ends in the
success (non-error) render state with the payload cached. -/
theorem forecast_scenario_not_processed_yet_succeeds :
    forecastScenario "Data has not been processed yet"
      = (⟨false, none, 0, some ()⟩, 3, 4000) := by decide

/-- C3: For every failed fetch on a data page, if the retry counter has
already reached 3, or the error message does not contain that page's
recognized "not ready" substring(s), no automatic retry is scheduled;
and whenever a retry is scheduled, firing it leaves the counter at most
3 (it is never incremented automatically past 3).  The Products page
never schedules a retry at all. -/
theorem no_automatic_retry_beyond_bound :
    (∀ (α : Type) (d : Option String) (s : PageState α),
        3 ≤ s.retryCount ∨
          strIncludes (forecastErrorMessage d) "not been processed yet" = false →
        (forecastFetchStep (.failure d) s).2 = none) ∧
    (∀ (d : Option String) (s : PageState String),
        3 ≤ s.retryCount ∨
          (strIncludes (reportErrorMessage d) "not been processed" = false ∧
            strIncludes (reportErrorMessage d) "Required analysis" = false) →
        (reportFetchStep (.failure d) s).2 = none) ∧
    (∀ (α : Type) (o : FetchOutcome α) (s : ProductsState α),
        (productsFetchStep o s).2 = none) ∧
    (∀ (α : Type) (d : Option String) (s : PageState α) (ms : Nat),
        (forecastFetchStep (.failure d) s).2 = some ms →
        (fireRetry (forecastFetchStep (.failure d) s).1).retryCount ≤ 3) ∧
    (∀ (d : Option String) (s : PageState String) (ms : Nat),
        (reportFetchStep (.failure d) s).2 = some ms →
        (fireRetry (reportFetchStep (.failure d) s).1).retryCount ≤ 3) := by
  refine ⟨fun α d s h => ?_, fun d s h => ?_, fun α o s => ?_,
    fun α d s ms h => ?_, fun d s ms h => ?_⟩
  · rcases h with h | h
    · simp [forecastFetchStep, forecastShouldRetry, show ¬(s.retryCount < 3) by omega]
    · simp [forecastFetchStep, forecastShouldRetry, h]
  · rcases h with h | ⟨h1, h2⟩
    · simp [reportFetchStep, reportShouldRetry, show ¬(s.retryCount < 3) by omega]
    · simp [reportFetchStep, reportShouldRetry, h1, h2]
  · cases o <;> rfl
  · have hlt : s.retryCount < 3 := by
      by_contra hge
      simp [forecastFetchStep, forecastShouldRetry, show ¬(s.retryCount < 3) from hge] at h
    show s.retryCount + 1 ≤ 3
    omega
  · have hlt : s.retryCount < 3 := by
      by_contra hge
      simp [reportFetchStep, reportShouldRetry, show ¬(s.retryCount < 3) from hge] at h
    show s.retryCount + 1 ≤ 3
    omega

/-- C3 witness: the theorem applied at concrete messages and states. -/
theorem no_automatic_retry_beyond_bound_witness :
    (forecastFetchStep (α := Unit) (.failure (some "boom")) PageState.init).2 = none ∧
    (reportFetchStep (.failure (some "boom")) PageState.init).2 = none ∧
    (productsFetchStep (α := Unit) (.failure (some "boom")) ⟨false, none, none⟩).2 = none ∧
    (fireRetry (forecastFetchStep (α := Unit)
      (.failure (some "Data has not been processed yet")) PageState.init).1).retryCount ≤ 3 ∧
    (fireRetry (reportFetchStep
      (.failure (some "Required analysis has not been processed"))
        PageState.init).1).retryCount ≤ 3 :=
  ⟨no_automatic_retry_beyond_bound.1 Unit _ PageState.init (Or.inr (by decide)),
   no_automatic_retry_beyond_bound.2.1 _ PageState.init (Or.inr ⟨by decide, by decide⟩),
   no_automatic_retry_beyond_bound.2.2.1 Unit _ _,
   no_automatic_retry_beyond_bound.2.2.2.1 Unit _ PageState.init 2000 (by decide),
   no_automatic_retry_beyond_bound.2.2.2.2 _ PageState.init 2000 (by decide)⟩

/-- One widget event preserves the `.csv`-only invariant. -/
theorem uploadCsvInv_step {F P : Type} (e : UploadEvent) (s : UploadWidgetState F P)
    (h : uploadCsvInv s) : uploadCsvInv (uploadWidgetStep e s) := by
  obtain ⟨hcalls, hfile⟩ := h
  cases e with
  | selectFile n =>
      by_cases hn : strEndsWith n ".csv" = true
      · refine ⟨?_, ?_⟩ <;> simp_all [uploadWidgetStep, handleFileChange, hn]
      · refine ⟨?_, ?_⟩ <;>
          simp_all [uploadWidgetStep, handleFileChange,
            show strEndsWith n ".csv" = false from by simpa using hn]
  | clickUpload uo po =>
      cases hf : s.file with
      | none =>
          constructor <;> simp_all [uploadWidgetStep, handleUpload, hf]
      | some f =>
          have hfcsv := hfile f hf
          have hext : ∀ n, n ∈ s.uploadCalls ∨ n = f → strEndsWith n ".csv" = true := by
            rintro n (hn | rfl)
            · exact hcalls n hn
            · exact hfcsv
          cases uo with
          | error e0 =>
              constructor <;> simp_all [uploadWidgetStep, handleUpload, hf]
          | ok fid =>
              cases po with
              | error e0 =>
                  constructor <;> simp_all [uploadWidgetStep, handleUpload, hf]
              | ok u =>
                  constructor <;> simp_all [uploadWidgetStep, handleUpload, hf]

/-- Every reachable widget state satisfies the `.csv`-only invariant. -/
theorem uploadCsvInv_run {F P : Type} (events : List UploadEvent) :
    uploadCsvInv (runUploadWidget (F := F) (P := P) events) := by
  have main : ∀ (evs : List UploadEvent) (s : UploadWidgetState F P), uploadCsvInv s →
      uploadCsvInv (evs.foldl (fun s e => uploadWidgetStep e s) s) := by
    intro evs
    induction evs with
    | nil => intro s h; exact h
    | cons e t ih => intro s h; exact ih _ (uploadCsvInv_step e s h)
  exact main events UploadWidgetState.init ⟨by simp [UploadWidgetState.init], by
    intro f hf; simp [UploadWidgetState.init] at hf⟩

/-- C4: A selected file whose name does not end in `.csv` triggers the
error "Please upload a CSV file", discards the selection, and touches no
endpoint; and across any event sequence, the upload endpoint is only
ever called with a file whose name ends in `.csv`. -/
theorem csv_only_upload_gate :
    (∀ (F P : Type) (name : String) (s : UploadWidgetState F P),
        strEndsWith name ".csv" = false →
        handleFileChange name s =
          { s with error := some "Please upload a CSV file", file := none } ∧
        (handleFileChange name s).uploadCalls = s.uploadCalls) ∧
    (∀ (F P : Type) (events : List UploadEvent),
        ∀ n ∈ (runUploadWidget (F := F) (P := P) events).uploadCalls,
          strEndsWith n ".csv" = true) := by
  refine ⟨fun F P name s h => ⟨?_, ?_⟩, fun F P events => (uploadCsvInv_run events).1⟩
  · simp [handleFileChange, h]
  · simp [handleFileChange, h]

/-- C4 witness: the theorem applied to the selection of `report.pdf`. -/
theorem csv_only_upload_gate_witness :
    strEndsWith "report.pdf" ".csv" = false ∧
    handleFileChange (F := Unit) (P := Unit) "report.pdf" UploadWidgetState.init =
      { UploadWidgetState.init with error := some "Please upload a CSV file", file := none } ∧
    (∀ n ∈ (runUploadWidget (F := Unit) (P := Unit)
        [UploadEvent.selectFile "report.pdf"]).uploadCalls, strEndsWith n ".csv" = true) :=
  ⟨by decide,
   (csv_only_upload_gate.1 Unit Unit "report.pdf" UploadWidgetState.init (by decide)).1,
   csv_only_upload_gate.2 Unit Unit [UploadEvent.selectFile "report.pdf"]⟩

/-- C10: In the upload flow with a file selected, the session's `fileId`
is assigned (to the returned `file_id`) only when both the upload call
and the process call succeed; if either call throws, the session's
`fileId` is left unchanged, and the processing flag ends `false` on every
such path. -/
theorem upload_fileid_transactional {F P : Type} (uo : Except Unit String)
    (po : Except Unit Unit) (s : UploadWidgetState F P) (f : String)
    (hfile : s.file = some f) :
    (handleUpload uo po s).session.isProcessing = false ∧
    (∀ e, uo = .error e → (handleUpload uo po s).session.fileId = s.session.fileId) ∧
    (∀ e, po = .error e → (handleUpload uo po s).session.fileId = s.session.fileId) ∧
    (∀ fid, uo = .ok fid → po = .ok () →
      (handleUpload uo po s).session.fileId = some fid) := by
  cases uo with
  | error e0 =>
      refine ⟨?_, ?_, ?_, ?_⟩ <;>
        simp_all [handleUpload, hfile, setIsProcessing, setFileId]
  | ok fid =>
      cases po with
      | error e0 =>
          refine ⟨?_, ?_, ?_, ?_⟩ <;>
            simp_all [handleUpload, hfile, setIsProcessing, setFileId]
      | ok u =>
          refine ⟨?_, ?_, ?_, ?_⟩ <;>
            simp_all [handleUpload, hfile, setIsProcessing, setFileId]

/-- C10 witness: the theorem applied to the upload of `sales.csv`
returning `file_id = "abc123"`, on the all-success path and on a failing
upload call. -/
theorem upload_fileid_transactional_witness :
    ((handleUpload (F := Unit) (P := Unit) (.ok "abc123") (.ok ())
        { UploadWidgetState.init with file := some "sales.csv" }).session.fileId
      = some "abc123") ∧
    ((handleUpload (F := Unit) (P := Unit) (.ok "abc123") (.ok ())
        { UploadWidgetState.init with file := some "sales.csv" }).session.isProcessing
      = false) ∧
    ((handleUpload (F := Unit) (P := Unit) (.error ()) (.ok ())
        { UploadWidgetState.init with file := some "sales.csv" }).session.fileId
      = none) :=
  ⟨(upload_fileid_transactional (.ok "abc123") (.ok ())
      { UploadWidgetState.init with file := some "sales.csv" } "sales.csv" rfl).2.2.2
        "abc123" rfl rfl,
   (upload_fileid_transactional (.ok "abc123") (.ok ())
      { UploadWidgetState.init with file := some "sales.csv" } "sales.csv" rfl).1,
   (upload_fileid_transactional (.error ()) (.ok ())
      { UploadWidgetState.init with file := some "sales.csv" } "sales.csv" rfl).2.1 () rfl⟩

/-- The rows of the CSV export, re-indexed: each recursion step emits one
row for the record at its 1-based rank. -/
theorem productsCsvRows_data (l : List ProductDetail) :
    ∀ k : Nat, (productsCsvRows k l).data
      = (l.mapIdx fun i p => (productRow (k + i) p ++ "\n").data).flatten := by
  induction l with
  | nil => intro k; simp [productsCsvRows]
  | cons p ps ih =>
      intro k
      have ih2 := ih (k + 1)
      simp only [productsCsvRows, List.mapIdx_cons, List.flatten_cons, String.data_append]
      simp only [String.data_append] at ih2
      rw [show (fun i q => (productRow (k + (i + 1)) q).data ++ ['\n'])
          = (fun i q => (productRow (k + 1 + i) q).data ++ ['\n']) from by
        funext i q; rw [show k + (i + 1) = k + 1 + i by omega]]
      rw [← ih2]
      simp

/-- C5: The CSV export emits the fixed header
`Rank,Name,Category,Revenue,Quantity,Contribution(%)` followed by one
newline-terminated row per record (1-based rank, double-quoted name and
category, revenue and percentage to two decimal places, integer
quantity); in particular, for the single record
`{name:"Pizza", category:"Main", revenue:123.4, quantity:10,
percentage:12.345}` the emitted text is the exact expected string. -/
theorem products_csv_export_format :
    (∀ l : List ProductDetail,
        (downloadProductsAsCSVContent l).data = productsCsvHeader.data
          ++ (l.mapIdx fun i p => (productRow i p ++ "\n").data).flatten) ∧
    downloadProductsAsCSVContent
        [⟨"Pizza", "Main", (1234 : ℚ) / 10, 10, (12345 : ℚ) / 1000⟩]
      = "Rank,Name,Category,Revenue,Quantity,Contribution(%)\n1,\"Pizza\",\"Main\",123.40,10,12.35\n" := by
  constructor
  · intro l
    simp only [downloadProductsAsCSVContent, String.data_append]
    rw [productsCsvRows_data l 0]
    simp
  · have h1 : toFixed2 ((1234 : ℚ) / 10) = "123.40" := by
      have habs : |(1234 : ℚ) / 10| = 1234 / 10 := abs_of_nonneg (by norm_num)
      have hfl : ⌊|(1234 : ℚ) / 10| * 100 + 1 / 2⌋ = (12340 : ℤ) := by
        rw [habs, Int.floor_eq_iff]
        norm_num
      simp only [toFixed2, hfl, if_neg (show ¬((1234 : ℚ) / 10 < 0) by norm_num)]
      decide
    have h2 : toFixed2 ((12345 : ℚ) / 1000) = "12.35" := by
      have habs : |(12345 : ℚ) / 1000| = 12345 / 1000 := abs_of_nonneg (by norm_num)
      have hfl : ⌊|(12345 : ℚ) / 1000| * 100 + 1 / 2⌋ = (1235 : ℤ) := by
        rw [habs, Int.floor_eq_iff]
        norm_num
      simp only [toFixed2, hfl, if_neg (show ¬((12345 : ℚ) / 1000 < 0) by norm_num)]
      decide
    simp only [downloadProductsAsCSVContent, productsCsvHeader, productsCsvRows, productRow,
      h1, h2]
    decide

/-- Every write emitted by the insights loop is an insight item. -/
theorem insightWrites_name (L : List Nat) :
    ∀ (page y : Nat) (e : PdfWrite), e ∈ (insightWrites page y L).1 →
      e.name = PdfSection.insight := by
  induction L with
  | nil => intro page y e he; simp [insightWrites] at he
  | cons L0 rest ih =>
      intro page y e he
      simp only [insightWrites] at he
      rcases List.mem_cons.mp he with rfl | hmem
      · rfl
      · exact ih page (y + L0 * 6 + 5) e hmem

/-- Every write emitted by the recommendations loop is a recommendation
item, written either at the top of a fresh page (cursor 20) or entirely
above the 270 threshold. -/
theorem recWrites_spec (L : List Nat) :
    ∀ (y page : Nat) (e : PdfWrite), e ∈ (recWrites y page L).1 →
      e.name = PdfSection.recommendation ∧ (e.y = 20 ∨ e.y + e.lines * 6 ≤ 270) := by
  induction L with
  | nil => intro y page e he; simp [recWrites] at he
  | cons L0 rest ih =>
      intro y page e he
      simp only [recWrites] at he
      by_cases hc : y + L0 * 6 > 270
      · rw [if_pos hc] at he
        rcases List.mem_cons.mp he with rfl | hmem
        · exact ⟨rfl, Or.inl rfl⟩
        · exact ih _ _ e hmem
      · rw [if_neg hc] at he
        rcases List.mem_cons.mp he with rfl | hmem
        · refine ⟨rfl, Or.inr ?_⟩
          show y + L0 * 6 ≤ 270
          omega
        · exact ih _ _ e hmem

/-- C6 counterexample: with a 45-line summary, the Key Insights header is
written at cursor 323 — far below the 270 page-bottom threshold — still
on page 1, with no page break inserted first; the claimed
break-before-every-section behaviour does not hold. -/
theorem report_pdf_section_below_bottom :
    (⟨PdfSection.insightsHeader, 323, 1, 1⟩ : PdfWrite) ∈ reportPdfTrace 45 [1] [1] 1 ∧
    270 < 323 := by decide

/-- C6 (amended): `downloadReportAsPDF` performs a page-break check only
before each recommendation item (a new page is started, resetting the
cursor to 20, when the item's wrapped height would pass 270) and before
the Future Outlook section (new page when the cursor exceeds 240, so the
outlook header always starts at cursor at most 240); the title, summary,
and insights sections are written with no check and may land below the
page-bottom threshold. -/
theorem report_pdf_page_break_checks (sL : Nat) (insL recL : List Nat) (oL : Nat) :
    (∀ e ∈ reportPdfTrace sL insL recL oL, e.name = PdfSection.recommendation →
        e.y = 20 ∨ e.y + e.lines * 6 ≤ 270) ∧
    (∀ e ∈ reportPdfTrace sL insL recL oL, e.name = PdfSection.outlookHeader →
        e.y ≤ 240) := by
  constructor
  · intro e he hn
    simp only [reportPdfTrace, List.append_assoc, List.mem_append, List.mem_cons,
      List.not_mem_nil, or_false, or_assoc] at he
    rcases he with rfl | rfl | rfl | rfl | rfl | hmem | rfl | hmem | rfl | rfl
    · exact PdfSection.noConfusion hn
    · exact PdfSection.noConfusion hn
    · exact PdfSection.noConfusion hn
    · exact PdfSection.noConfusion hn
    · exact PdfSection.noConfusion hn
    · exact PdfSection.noConfusion ((insightWrites_name insL _ _ e hmem).symm.trans hn)
    · exact PdfSection.noConfusion hn
    · exact (recWrites_spec recL _ _ e hmem).2
    · exact PdfSection.noConfusion hn
    · exact PdfSection.noConfusion hn
  · intro e he hn
    simp only [reportPdfTrace, List.append_assoc, List.mem_append, List.mem_cons,
      List.not_mem_nil, or_false, or_assoc] at he
    rcases he with rfl | rfl | rfl | rfl | rfl | hmem | rfl | hmem | rfl | rfl
    · exact PdfSection.noConfusion hn
    · exact PdfSection.noConfusion hn
    · exact PdfSection.noConfusion hn
    · exact PdfSection.noConfusion hn
    · exact PdfSection.noConfusion hn
    · exact PdfSection.noConfusion ((insightWrites_name insL _ _ e hmem).symm.trans hn)
    · exact PdfSection.noConfusion hn
    · exact PdfSection.noConfusion ((recWrites_spec recL _ _ e hmem).1.symm.trans hn)
    · show (if _ > 240 then 20 else _) ≤ 240
      split
      · omega
      · omega
    · exact PdfSection.noConfusion hn

/-- C6 witness: the amended theorem applied to a trace whose single
60-line recommendation forces a page break, and whose outlook section
starts on a fresh page. -/
theorem report_pdf_page_break_checks_witness :
    ((⟨PdfSection.recommendation, 20, 60, 2⟩ : PdfWrite) ∈ reportPdfTrace 1 [1] [60] 1) ∧
    ((20 : Nat) = 20 ∨ 20 + 60 * 6 ≤ 270) ∧
    ((⟨PdfSection.outlookHeader, 20, 1, 3⟩ : PdfWrite) ∈ reportPdfTrace 1 [1] [60] 1) ∧
    (20 : Nat) ≤ 240 :=
  ⟨by decide,
   (report_pdf_page_break_checks 1 [1] [60] 1).1 ⟨.recommendation, 20, 60, 2⟩ (by decide) rfl,
   by decide,
   (report_pdf_page_break_checks 1 [1] [60] 1).2 ⟨.outlookHeader, 20, 1, 3⟩ (by decide) rfl⟩
